import Mathlib

/-!
Verification development for the project-architecture-overview generator
(`agent-tools/architecture-overview.py`).

The heuristic, regex-based structural extractor is shallowly embedded here.
Source text is modelled as `List Char`.  Each regular-expression of the
source is embedded as an explicit matcher that mirrors the left-to-right,
backtracking semantics of the `re` module: greedy pieces enumerate their
candidate splits longest-first, lazy pieces shortest-first, alternations and
optional groups are tried in pattern order, and `finditer` scans positions
left to right, resuming after the end of each (non-overlapping) match.
-/

namespace ArchOverview

/-- Source text, a list of characters. -/
abbrev Cs := List Char

/-- The whitespace class of the regex `\s` (ASCII fragment). -/
def isSpaceCh (c : Char) : Bool :=
  c = ' ' || c = '\t' || c = '\n' || c = '\r' || c.toNat = 11 || c.toNat = 12

/-- The word class of the regex `\w` (ASCII fragment). -/
def isWordCh (c : Char) : Bool :=
  c.isAlphanum || c = '_'

/-- Quote class of the regex, both quote characters. -/
def isQuoteCh (c : Char) : Bool :=
  c.toNat = 39 || c = '"'

/-- Match a literal sequence of characters, returning the rest on success. -/
def lit : Cs → Cs → Option Cs
  | [], s => some s
  | _ :: _, [] => none
  | c :: cs, d :: ds => if c = d then lit cs ds else none

/-- All splits of a greedy `p*`: candidate (consumed, rest) pairs, longest
consumed prefix first, exactly the backtracking order of a greedy star. -/
def splitsDesc (p : Char → Bool) (s : Cs) : List (Cs × Cs) :=
  let pre := s.takeWhile p
  let rest := s.dropWhile p
  ((List.range (pre.length + 1)).reverse).map (fun k => (pre.take k, pre.drop k ++ rest))

/-- All splits of a lazy `p*?`: shortest consumed prefix first. -/
def splitsAsc (p : Char → Bool) (s : Cs) : List (Cs × Cs) :=
  let pre := s.takeWhile p
  let rest := s.dropWhile p
  (List.range (pre.length + 1)).map (fun k => (pre.take k, pre.drop k ++ rest))

/-- All splits of a greedy `p+`: like `splitsDesc` but the consumed part is
nonempty. -/
def plusDesc (p : Char → Bool) (s : Cs) : List (Cs × Cs) :=
  (splitsDesc p s).filter (fun pr => !(pr.1.isEmpty))

/-- Ordered choice: return the first alternative on which the continuation
succeeds.  This is the engine of regex backtracking. -/
def firstSome {α β : Type} : List α → (α → Option β) → Option β
  | [], _ => none
  | a :: tl, f =>
    match f a with
    | some b => some b
    | none => firstSome tl f

/-- One scanning step list of `re.finditer`: try the matcher at every
position left to right; after a match resume at its end (one character
further if the match were empty), collecting the match data in order.
The fuel argument bounds the recursion and is always sufficient. -/
def finditerAux {α : Type} (m : Cs → Option (α × Cs)) : Nat → Cs → List α
  | 0, _ => []
  | Nat.succ fuel, s =>
    match m s, s with
    | some (a, _), [] => [a]
    | some (a, r), c :: t =>
      if r.length < (c :: t).length then a :: finditerAux m fuel r
      else a :: finditerAux m fuel t
    | none, [] => []
    | none, _ :: t => finditerAux m fuel t

/-- `re.finditer`: all non-overlapping matches, leftmost first. -/
def finditer {α : Type} (m : Cs → Option (α × Cs)) (s : Cs) : List α :=
  finditerAux m (s.length + 1) s

/-- Python `str.strip()` (ASCII whitespace fragment). -/
def pyStrip (s : Cs) : Cs :=
  ((s.dropWhile isSpaceCh).reverse.dropWhile isSpaceCh).reverse

/-- Python substring containment, `needle in hay`. -/
def containsSub (n : Cs) : Cs → Bool
  | [] => n.isEmpty
  | c :: t => n.isPrefixOf (c :: t) || containsSub n t

/-! ## The record model (the dataclasses of the source) -/

/-- `FunctionInfo`: a function or method.  The `name` field is an `Option`
because the source can store Python `None` in it (the arrow-function branch
reads the group tuple with function-declaration indices). -/
structure FunctionInfo where
  name : Option Cs
  signature : Cs
  is_async : Bool
  is_exported : Bool
deriving DecidableEq, Repr

/-- `ClassInfo`: a class with its captured method summaries. -/
structure ClassInfo where
  name : Cs
  methods : List FunctionInfo
  is_exported : Bool
deriving DecidableEq, Repr

/-- `TypeInfo`: an interface, type alias or enum declaration. -/
structure TypeInfo where
  name : Cs
  kind : Cs
  is_exported : Bool
deriving DecidableEq, Repr

/-- `FileAnalysis`: the structural record of one file. -/
structure FileAnalysis where
  imports : List Cs := []
  exports : List Cs := []
  classes : List ClassInfo := []
  functions : List FunctionInfo := []
  types : List TypeInfo := []
  has_tests : Bool := false
deriving DecidableEq, Repr

/-! ## Python (kind-B) matchers

Regexes of `analyze_python_file`, embedded left to right. -/

/-- Matcher for `from\s+(\.[^\s]+)\s+import`; yields the captured path. -/
def pyImportM (s : Cs) : Option (Cs × Cs) :=
  (lit (("from").toList) s).bind (fun s1 =>
  firstSome (plusDesc isSpaceCh s1) (fun pr1 =>
  match pr1.2 with
  | '.' :: s3 =>
    firstSome (plusDesc (fun c => !(isSpaceCh c)) s3) (fun pr2 =>
    firstSome (plusDesc isSpaceCh pr2.2) (fun pr3 =>
    (lit (("import").toList) pr3.2).map (fun s6 => ('.' :: pr2.1, s6))))
  | _ => none))

/-- Matcher for `class\s+(\w+)`; yields the name and (again, as match data)
the rest of the text after the match, where the method-scan window starts. -/
def pyClassM (s : Cs) : Option ((Cs × Cs) × Cs) :=
  (lit (("class").toList) s).bind (fun s1 =>
  firstSome (plusDesc isSpaceCh s1) (fun pr1 =>
  firstSome (plusDesc isWordCh pr1.2) (fun pr2 =>
  some ((pr2.1, pr2.2), pr2.2))))

/-- Tail `(?:\s*->\s*([^:]+))?:` of the def regex: optional return
annotation, then the terminating colon. -/
def pyAfterParams (s : Cs) : Option (Option Cs × Cs) :=
  match
    firstSome (splitsDesc isSpaceCh s) (fun pr1 =>
    (lit (("->").toList) pr1.2).bind (fun s2 =>
    firstSome (splitsDesc isSpaceCh s2) (fun pr2 =>
    firstSome (plusDesc (fun c => !(c = ':')) pr2.2) (fun pr3 =>
    match pr3.2 with
    | ':' :: s5 => some (pr3.1, s5)
    | _ => none))))
  with
  | some (g, r) => some (some g, r)
  | none =>
    match s with
    | ':' :: s1 => some ((none : Option Cs), s1)
    | _ => none

/-- Piece `def\s+(\w+)\s*\(([^)]*)\)` of the def regex followed by
`pyAfterParams`; yields (name, params, return annotation). -/
def pyDefTail (s : Cs) : Option ((Cs × Cs × Option Cs) × Cs) :=
  (lit (("def").toList) s).bind (fun s1 =>
  firstSome (plusDesc isSpaceCh s1) (fun pr1 =>
  firstSome (plusDesc isWordCh pr1.2) (fun pr2 =>
  firstSome (splitsDesc isSpaceCh pr2.2) (fun pr3 =>
  match pr3.2 with
  | '(' :: s5 =>
    firstSome (splitsDesc (fun c => !(c = ')')) s5) (fun pr4 =>
    match pr4.2 with
    | ')' :: s7 => (pyAfterParams s7).map (fun gr => ((pr2.1, pr4.1, gr.1), gr.2))
    | _ => none)
  | _ => none))))

/-- Match data of the def regex, with `g0` the whole matched text
(`match.group(0)`). -/
structure PyDef where
  g0 : Cs
  name : Cs
  params : Cs
  ret : Option Cs
deriving DecidableEq, Repr

/-- Matcher for `(?:async\s+)?def\s+(\w+)\s*\(([^)]*)\)(?:\s*->\s*([^:]+))?:`. -/
def pyDefM (s : Cs) : Option (PyDef × Cs) :=
  match
    (lit (("async").toList) s).bind (fun s1 =>
    firstSome (plusDesc isSpaceCh s1) (fun pr1 => pyDefTail pr1.2))
  with
  | some (t, r) =>
    some ({ g0 := s.take (s.length - r.length), name := t.1, params := t.2.1, ret := t.2.2 }, r)
  | none =>
    (pyDefTail s).map (fun tr =>
      ({ g0 := s.take (s.length - tr.2.length), name := tr.1.1, params := tr.1.2.1,
         ret := tr.1.2.2 }, tr.2))

/-! ## `analyze_python_file` -/

/-- Signature rendering of the Python analyzer:
`f"({params})"` plus, when the stripped return annotation is nonempty
(Python truthiness), `f" -> {return_type}"`. -/
def mkPySig (params : Cs) (ret : Option Cs) : Cs :=
  let base := '(' :: pyStrip params ++ [')']
  match ret with
  | none => base
  | some r =>
    let r2 := pyStrip r
    if r2 = [] then base else base ++ (" -> ").toList ++ r2

/-- Build the `FunctionInfo` the Python analyzer appends for one def match:
`is_async` is the substring test `'async' in match.group(0)`. -/
def pyMkFunctionInfo (m : PyDef) : FunctionInfo :=
  { name := some m.name
  , signature := mkPySig m.params m.ret
  , is_async := containsSub (("async").toList) m.g0
  , is_exported := false }

/-- Method extraction inside one class scan window: every def match is kept
except dunder-named ones other than the initializer
(`method_name.startswith('__') and method_name != '__init__'`). -/
def pyClassMethods (window : Cs) : List FunctionInfo :=
  (finditer pyDefM window).filterMap (fun m =>
    if (("__").toList).isPrefixOf m.name = true ∧ ¬(m.name = ("__init__").toList)
    then none else some (pyMkFunctionInfo m))

/-- The classes of a Python file: each `class` match opens a 2000-character
scan window starting at the match end. -/
def pyClassesOf (content : Cs) : List ClassInfo :=
  (finditer pyClassM content).map (fun pr =>
    { name := pr.1, methods := pyClassMethods (pr.2.take 2000), is_exported := false })

/-- The flat list of already-captured method names
(`[m.name for c in analysis.classes for m in c.methods]`). -/
def pyMethodNamesOf (classes : List ClassInfo) : List (Option Cs) :=
  classes.flatMap (fun c => c.methods.map (fun m => m.name))

/-- The standalone functions of a Python file: every def match over the
whole file whose name is not among the captured method names. -/
def pyFunctionsOf (content : Cs) : List FunctionInfo :=
  (finditer pyDefM content).filterMap (fun m =>
    if (some m.name) ∈ pyMethodNamesOf (pyClassesOf content) then none
    else some (pyMkFunctionInfo m))

/-- `analyze_python_file`.  The filesystem test-existence probe is an
external input, passed as `ht`. -/
def analyze_python_file (content : Cs) (ht : Bool) : FileAnalysis :=
  { imports := finditer pyImportM content
  , exports := []
  , classes := pyClassesOf content
  , functions := pyFunctionsOf content
  , types := []
  , has_tests := ht }

/-! ## TypeScript/JavaScript (kind-A) matchers

Regexes of `analyze_typescript_file`, embedded left to right. -/

/-- Matcher for `import\s+.*?\s+from\s+['"](\.[^'"]+)['"]`; yields the
captured path (the lazy `.*?` matches any character other than a newline). -/
def tsImportM (s : Cs) : Option (Cs × Cs) :=
  (lit (("import").toList) s).bind (fun s1 =>
  firstSome (plusDesc isSpaceCh s1) (fun pr1 =>
  firstSome (splitsAsc (fun c => !(c = '\n')) pr1.2) (fun pr2 =>
  firstSome (plusDesc isSpaceCh pr2.2) (fun pr3 =>
  (lit (("from").toList) pr3.2).bind (fun s5 =>
  firstSome (plusDesc isSpaceCh s5) (fun pr4 =>
  match pr4.2 with
  | c :: s7 =>
    if isQuoteCh c then
      match s7 with
      | '.' :: s8 =>
        firstSome (plusDesc (fun c2 => !(isQuoteCh c2)) s8) (fun pr5 =>
        match pr5.2 with
        | e :: s10 => if isQuoteCh e then some ('.' :: pr5.1, s10) else none
        | [] => none)
      | _ => none
    else none
  | [] => none))))))

/-- Matcher for
`export\s+(?:const|let|var|function|class|interface|type|enum)\s+(\w+)`;
yields the exported identifier. -/
def tsExportM (s : Cs) : Option (Cs × Cs) :=
  (lit (("export").toList) s).bind (fun s1 =>
  firstSome (plusDesc isSpaceCh s1) (fun pr1 =>
  firstSome ([("const").toList, ("let").toList, ("var").toList, ("function").toList,
              ("class").toList, ("interface").toList, ("type").toList, ("enum").toList])
    (fun kw =>
  (lit kw pr1.2).bind (fun s3 =>
  firstSome (plusDesc isSpaceCh s3) (fun pr2 =>
  firstSome (plusDesc isWordCh pr2.2) (fun pr3 => some (pr3.1, pr3.2)))))))

/-- Matcher for `export\s+default\s+(\w+)`; yields the identifier. -/
def tsDefaultM (s : Cs) : Option (Cs × Cs) :=
  (lit (("export").toList) s).bind (fun s1 =>
  firstSome (plusDesc isSpaceCh s1) (fun pr1 =>
  (lit (("default").toList) pr1.2).bind (fun s3 =>
  firstSome (plusDesc isSpaceCh s3) (fun pr2 =>
  firstSome (plusDesc isWordCh pr2.2) (fun pr3 => some (pr3.1, pr3.2))))))

/-- Shared tail `<kw>\s+(\w+)` of the declaration regexes. -/
def tsKwName (kw : Cs) (s : Cs) : Option ((Cs × Cs) × Cs) :=
  (lit kw s).bind (fun s1 =>
  firstSome (plusDesc isSpaceCh s1) (fun pr1 =>
  firstSome (plusDesc isWordCh pr1.2) (fun pr2 => some ((pr2.1, pr2.2), pr2.2))))

/-- Matcher for `(export\s+)?<kw>\s+(\w+)` (used with `interface`, `type`,
`enum` and `class`); yields (exported flag, name, text after the match end,
where a scan window would start). -/
def tsDeclM (kw : Cs) (s : Cs) : Option ((Bool × Cs × Cs) × Cs) :=
  match
    (lit (("export").toList) s).bind (fun s1 =>
    firstSome (plusDesc isSpaceCh s1) (fun pr1 => tsKwName kw pr1.2))
  with
  | some (nr, r) => some ((true, nr.1, nr.2), r)
  | none => (tsKwName kw s).map (fun nr => ((false, nr.1.1, nr.1.2), nr.2))

/-- Tail `(?:\s*:\s*([^\{]+))?\s*\{` of the method and function regexes:
optional return annotation, whitespace, then the opening brace. -/
def tsAfterParams (s : Cs) : Option (Option Cs × Cs) :=
  match
    firstSome (splitsDesc isSpaceCh s) (fun pr1 =>
    match pr1.2 with
    | ':' :: s2 =>
      firstSome (splitsDesc isSpaceCh s2) (fun pr2 =>
      firstSome (plusDesc (fun c => !(c = '\x7b')) pr2.2) (fun pr3 =>
      firstSome (splitsDesc isSpaceCh pr3.2) (fun pr4 =>
      match pr4.2 with
      | '\x7b' :: s6 => some (pr3.1, s6)
      | _ => none)))
    | _ => none)
  with
  | some (g, r) => some (some g, r)
  | none =>
    firstSome (splitsDesc isSpaceCh s) (fun pr1 =>
    match pr1.2 with
    | '\x7b' :: s2 => some ((none : Option Cs), s2)
    | _ => none)

/-- Match data of the method regex. -/
structure TsMeth where
  isAsync : Bool
  name : Cs
  params : Cs
  ret : Option Cs
deriving DecidableEq, Repr

/-- Piece `(\w+)\s*\(([^)]*)\)` of the method regex followed by
`tsAfterParams`. -/
def tsMethodCore (s : Cs) : Option (TsMeth × Cs) :=
  firstSome (plusDesc isWordCh s) (fun pr1 =>
  firstSome (splitsDesc isSpaceCh pr1.2) (fun pr2 =>
  match pr2.2 with
  | '(' :: s3 =>
    firstSome (splitsDesc (fun c => !(c = ')')) s3) (fun pr3 =>
    match pr3.2 with
    | ')' :: s5 =>
      (tsAfterParams s5).map (fun gr =>
        ({ isAsync := false, name := pr1.1, params := pr3.1, ret := gr.1 }, gr.2))
    | _ => none)
  | _ => none))

/-- Optional group `(async\s+)?` before the method core; `isAsync` records
whether the group participated in the match. -/
def tsMethodAsync (s : Cs) : Option (TsMeth × Cs) :=
  match
    (lit (("async").toList) s).bind (fun s1 =>
    firstSome (plusDesc isSpaceCh s1) (fun pr1 => tsMethodCore pr1.2))
  with
  | some (m, r) => some ({ m with isAsync := true }, r)
  | none => tsMethodCore s

/-- Matcher for
`(?:public|private|protected)?\s*(async\s+)?(\w+)\s*\(([^)]*)\)(?:\s*:\s*([^\{]+))?\s*\{`. -/
def tsMethodM (s : Cs) : Option (TsMeth × Cs) :=
  match
    firstSome ([("public").toList, ("private").toList, ("protected").toList]) (fun kw =>
    (lit kw s).bind (fun s1 =>
    firstSome (splitsDesc isSpaceCh s1) (fun pr1 => tsMethodAsync pr1.2)))
  with
  | some r => some r
  | none =>
    firstSome (splitsDesc isSpaceCh s) (fun pr1 => tsMethodAsync pr1.2)

/-- The tuple `match.groups()` of the standalone-function regexes: both have
exactly five capture groups, so the analyzer reads every match with the same
(function-declaration) indices. -/
structure Groups5 where
  g0 : Option Cs
  g1 : Option Cs
  g2 : Option Cs
  g3 : Option Cs
  g4 : Option Cs
deriving DecidableEq, Repr

/-- Piece `function\s+(\w+)\s*\(([^)]*)\)` of the function-declaration
regex followed by `tsAfterParams`. -/
def tsFuncTail (s : Cs) : Option ((Cs × Cs × Option Cs) × Cs) :=
  (lit (("function").toList) s).bind (fun s1 =>
  firstSome (plusDesc isSpaceCh s1) (fun pr1 =>
  firstSome (plusDesc isWordCh pr1.2) (fun pr2 =>
  firstSome (splitsDesc isSpaceCh pr2.2) (fun pr3 =>
  match pr3.2 with
  | '(' :: s5 =>
    firstSome (splitsDesc (fun c => !(c = ')')) s5) (fun pr4 =>
    match pr4.2 with
    | ')' :: s7 => (tsAfterParams s7).map (fun gr => ((pr2.1, pr4.1, gr.1), gr.2))
    | _ => none)
  | _ => none))))

/-- Optional group `(async\s+)?` before `tsFuncTail`; the group value is the
keyword together with the matched whitespace. -/
def tsFuncAsync (gExp : Option Cs) (s : Cs) : Option (Groups5 × Cs) :=
  match
    (lit (("async").toList) s).bind (fun s1 =>
    firstSome (plusDesc isSpaceCh s1) (fun pr1 =>
    (tsFuncTail pr1.2).map (fun tr => ((("async").toList ++ pr1.1, tr.1), tr.2))))
  with
  | some (gt, r) =>
    some ({ g0 := gExp, g1 := some gt.1, g2 := some gt.2.1, g3 := some gt.2.2.1,
            g4 := gt.2.2.2 }, r)
  | none =>
    (tsFuncTail s).map (fun tr =>
      ({ g0 := gExp, g1 := none, g2 := some tr.1.1, g3 := some tr.1.2.1,
         g4 := tr.1.2.2 }, tr.2))

/-- Matcher for
`(export\s+)?(async\s+)?function\s+(\w+)\s*\(([^)]*)\)(?:\s*:\s*([^\{]+))?\s*\{`. -/
def tsFuncDeclM (s : Cs) : Option (Groups5 × Cs) :=
  match
    (lit (("export").toList) s).bind (fun s1 =>
    firstSome (plusDesc isSpaceCh s1) (fun pr1 =>
    tsFuncAsync (some (("export").toList ++ pr1.1)) pr1.2))
  with
  | some r => some r
  | none => tsFuncAsync none s

/-- Tail `(?:\s*:\s*([^\=\>]+))?\s*=>` of the arrow-function regex. -/
def tsArrowAfterParams (s : Cs) : Option (Option Cs × Cs) :=
  match
    firstSome (splitsDesc isSpaceCh s) (fun pr1 =>
    match pr1.2 with
    | ':' :: s2 =>
      firstSome (splitsDesc isSpaceCh s2) (fun pr2 =>
      firstSome (plusDesc (fun c => !(c = '=' || c = '>')) pr2.2) (fun pr3 =>
      firstSome (splitsDesc isSpaceCh pr3.2) (fun pr4 =>
      (lit (("=>").toList) pr4.2).map (fun s6 => (pr3.1, s6)))))
    | _ => none)
  with
  | some (g, r) => some (some g, r)
  | none =>
    firstSome (splitsDesc isSpaceCh s) (fun pr1 =>
    (lit (("=>").toList) pr1.2).map (fun s2 => ((none : Option Cs), s2)))

/-- Piece `\(([^)]*)\)` of the arrow-function regex followed by
`tsArrowAfterParams`. -/
def tsArrowParen (s : Cs) : Option ((Cs × Option Cs) × Cs) :=
  match s with
  | '(' :: s1 =>
    firstSome (splitsDesc (fun c => !(c = ')')) s1) (fun pr1 =>
    match pr1.2 with
    | ')' :: s3 => (tsArrowAfterParams s3).map (fun gr => ((pr1.1, gr.1), gr.2))
    | _ => none)
  | _ => none

/-- Piece `(?:const|let|var)\s+(\w+)\s*=\s*(async\s+)?` of the
arrow-function regex followed by `tsArrowParen`.  Group indices follow the
regex: the identifier is group 2, the async group is group 3. -/
def tsArrowTail (gExp : Option Cs) (s : Cs) : Option (Groups5 × Cs) :=
  firstSome ([("const").toList, ("let").toList, ("var").toList]) (fun kw =>
  (lit kw s).bind (fun s1 =>
  firstSome (plusDesc isSpaceCh s1) (fun pr1 =>
  firstSome (plusDesc isWordCh pr1.2) (fun pr2 =>
  firstSome (splitsDesc isSpaceCh pr2.2) (fun pr3 =>
  match pr3.2 with
  | '=' :: s5 =>
    firstSome (splitsDesc isSpaceCh s5) (fun pr4 =>
    match
      (lit (("async").toList) pr4.2).bind (fun t1 =>
      firstSome (plusDesc isSpaceCh t1) (fun pr5 =>
      (tsArrowParen pr5.2).map (fun tr => ((("async").toList ++ pr5.1, tr.1), tr.2))))
    with
    | some (gt, r) =>
      some ({ g0 := gExp, g1 := some pr2.1, g2 := some gt.1, g3 := some gt.2.1,
              g4 := gt.2.2 }, r)
    | none =>
      (tsArrowParen pr4.2).map (fun tr =>
        ({ g0 := gExp, g1 := some pr2.1, g2 := none, g3 := some tr.1.1,
           g4 := tr.1.2 }, tr.2)))
  | _ => none)))))

/-- Matcher for
`(export\s+)?(?:const|let|var)\s+(\w+)\s*=\s*(async\s+)?\(([^)]*)\)(?:\s*:\s*([^\=\>]+))?\s*=>`. -/
def tsArrowM (s : Cs) : Option (Groups5 × Cs) :=
  match
    (lit (("export").toList) s).bind (fun s1 =>
    firstSome (plusDesc isSpaceCh s1) (fun pr1 =>
    tsArrowTail (some (("export").toList ++ pr1.1)) pr1.2))
  with
  | some r => some r
  | none => tsArrowTail none s

/-! ## `analyze_typescript_file` -/

/-- Signature rendering of the TypeScript analyzer: `f"({params})"` with
stripped parameters plus, when the stripped return annotation is nonempty,
`f": {return_type}"`. -/
def mkTsSig (params : Cs) (ret : Option Cs) : Cs :=
  let base := '(' :: pyStrip params ++ [')']
  match ret with
  | none => base
  | some r =>
    let r2 := pyStrip r
    if r2 = [] then base else base ++ (": ").toList ++ r2

/-- Method extraction inside one class scan window: every method match is
kept except the constructor (`method_name in ['constructor', class_name]`). -/
def tsClassMethodsOf (className : Cs) (window : Cs) : List FunctionInfo :=
  (finditer tsMethodM window).filterMap (fun m =>
    if m.name = ("constructor").toList ∨ m.name = className then none
    else some
      { name := some m.name
      , signature := mkTsSig m.params m.ret
      , is_async := m.isAsync
      , is_exported := false })

/-- The classes of a kind-A file: each `class` match opens a 2000-character
scan window starting at the match end. -/
def tsClassesOf (content : Cs) : List ClassInfo :=
  (finditer (tsDeclM (("class").toList)) content).map (fun tr =>
    { name := tr.2.1
    , methods := tsClassMethodsOf tr.2.1 (tr.2.2.take 2000)
    , is_exported := tr.1 })

/-- The exports of a kind-A file: named exports, then default exports
recorded with the `default: ` sentinel prefix. -/
def tsExportsOf (content : Cs) : List Cs :=
  finditer tsExportM content ++
    (finditer tsDefaultM content).map (fun n => ("default: ").toList ++ n)

/-- The type declarations of a kind-A file: the `interface` pass, then the
`type` pass, then the `enum` pass. -/
def tsTypesOf (content : Cs) : List TypeInfo :=
  ((finditer (tsDeclM (("interface").toList)) content).map (fun tr =>
    { name := tr.2.1, kind := ("interface").toList, is_exported := tr.1 })) ++
  ((finditer (tsDeclM (("type").toList)) content).map (fun tr =>
    { name := tr.2.1, kind := ("type").toList, is_exported := tr.1 })) ++
  ((finditer (tsDeclM (("enum").toList)) content).map (fun tr =>
    { name := tr.2.1, kind := ("enum").toList, is_exported := tr.1 }))

/-- The shared interpretation of one standalone-function match: the source
checks `len(groups) == 5`, which holds for both regexes, so every match is
read with function-declaration group indices. -/
def interpFuncGroups (g : Groups5) : FunctionInfo :=
  { name := g.g2
  , signature := mkTsSig (g.g3.getD []) g.g4
  , is_async := g.g1.isSome
  , is_exported := g.g0.isSome }

/-- The standalone functions of a kind-A file: the function-declaration
pass, then the arrow-function pass. -/
def tsFunctionsOf (content : Cs) : List FunctionInfo :=
  ((finditer tsFuncDeclM content) ++ (finditer tsArrowM content)).map interpFuncGroups

/-- `analyze_typescript_file`.  The filesystem test-existence probe is an
external input, passed as `ht`. -/
def analyze_typescript_file (content : Cs) (ht : Bool) : FileAnalysis :=
  { imports := finditer tsImportM content
  , exports := tsExportsOf content
  , classes := tsClassesOf content
  , functions := tsFunctionsOf content
  , types := tsTypesOf content
  , has_tests := ht }

/-! ## The extraction entry points -/

/-- The declared source kind of §2 of the specification: kind A is the
TypeScript/JavaScript family, kind B is Python, `otherKind` any other
recognized code extension. -/
inductive SourceKind where
  | kindA
  | kindB
  | otherKind
deriving DecidableEq, Repr

/-- `extract(sourceText, sourceKind)`: dispatch of `analyze_file` once the
content has been read.  For other kinds the source returns
`FileAnalysis(has_tests=...)`, a record with empty lists. -/
def extract (content : Cs) (k : SourceKind) (ht : Bool) : FileAnalysis :=
  match k with
  | SourceKind.kindA => analyze_typescript_file content ht
  | SourceKind.kindB => analyze_python_file content ht
  | SourceKind.otherKind => { has_tests := ht }

/-- `CODE_EXTENSIONS` of the source. -/
def codeExtensions : List Cs :=
  [(".ts").toList, (".tsx").toList, (".js").toList, (".jsx").toList,
   (".py").toList,
   (".java").toList,
   (".go").toList,
   (".rs").toList,
   (".c").toList, (".cpp").toList, (".h").toList, (".hpp").toList]

/-- The TypeScript/JavaScript extension set of `analyze_file`. -/
def tsExtensions : List Cs :=
  [(".ts").toList, (".tsx").toList, (".js").toList, (".jsx").toList]

/-- `analyze_file`: `ext` is the file suffix, `readResult` the outcome of
the guarded file read (`none` when `open`/`read` raised, caught by the
`except Exception` handler), `ht` the test-existence probe. -/
def analyze_file (ext : Cs) (readResult : Option Cs) (ht : Bool) : Option FileAnalysis :=
  let e := ext.map Char.toLower
  if ¬(e ∈ codeExtensions) then none
  else
    match readResult with
    | none => none
    | some content =>
      if e ∈ tsExtensions then some (analyze_typescript_file content ht)
      else if e = (".py").toList then some (analyze_python_file content ht)
      else some { has_tests := ht }

/-! ## Per-file serialization of `generate_compact_index` -/

/-- Rendering of a Python value in an f-string: `None` prints as `None`. -/
def showOptName (n : Option Cs) : Cs :=
  match n with
  | some s => s
  | none => ("None").toList

/-- `"true"` / `"false"` rendering of the has-tests flag. -/
def boolTF (b : Bool) : Cs :=
  if b then ("true").toList else ("false").toList

/-- `"1"` / `"0"` rendering of the exported/async flags. -/
def bool01 (b : Bool) : Cs :=
  if b then ("1").toList else ("0").toList

/-- Decimal rendering of a byte size. -/
def natStr (n : Nat) : Cs := (toString n).toList

/-- `FILE|relative_path|size_bytes|has_tests`. -/
def mkFileLine (rel : Cs) (size : Nat) (ht : Bool) : Cs :=
  ("FILE|").toList ++ rel ++ ['|'] ++ natStr size ++ ['|'] ++ boolTF ht

/-- `IMPORT` lines: `analysis.imports[:5]`. -/
def importLines (rel : Cs) (a : FileAnalysis) : List Cs :=
  (a.imports.take 5).map (fun p => ("IMPORT|").toList ++ rel ++ ['|'] ++ p)

/-- `EXPORT` lines: `analysis.exports[:10]`. -/
def exportLines (rel : Cs) (a : FileAnalysis) : List Cs :=
  (a.exports.take 10).map (fun n => ("EXPORT|").toList ++ rel ++ ['|'] ++ n)

/-- `TYPE` lines: every type declaration, no limit. -/
def typeLines (rel : Cs) (a : FileAnalysis) : List Cs :=
  a.types.map (fun t =>
    ("TYPE|").toList ++ rel ++ ['|'] ++ t.name ++ ['|'] ++ t.kind ++ ['|'] ++
      bool01 t.is_exported)

/-- One `METHOD` line. -/
def mkMethodLine (rel : Cs) (className : Cs) (m : FunctionInfo) : Cs :=
  ("METHOD|").toList ++ rel ++ ['|'] ++ className ++ ['|'] ++ showOptName m.name ++
    ['|'] ++ bool01 m.is_async

/-- `METHOD` lines of one class: `class_info.methods[:10]`. -/
def methodLines (rel : Cs) (c : ClassInfo) : List Cs :=
  (c.methods.take 10).map (mkMethodLine rel c.name)

/-- The `CLASS` line of one class followed by its `METHOD` lines. -/
def classBlock (rel : Cs) (c : ClassInfo) : List Cs :=
  (("CLASS|").toList ++ rel ++ ['|'] ++ c.name ++ ['|'] ++ bool01 c.is_exported) ::
    methodLines rel c

/-- `FUNC` lines: `analysis.functions[:15]`. -/
def funcLines (rel : Cs) (a : FileAnalysis) : List Cs :=
  (a.functions.take 15).map (fun f =>
    ("FUNC|").toList ++ rel ++ ['|'] ++ showOptName f.name ++ ['|'] ++
      bool01 f.is_async ++ ['|'] ++ bool01 f.is_exported)

/-- The whole per-file output of `generate_compact_index`: the always
written `FILE` line (whose flag is `"true"` only when an analysis exists and
its `has_tests` holds), then, only when an analysis exists, the bounded
structural line groups. -/
def fileLines (rel : Cs) (size : Nat) (analysis : Option FileAnalysis) : List Cs :=
  mkFileLine rel size (match analysis with
    | some a => a.has_tests
    | none => false) ::
  (match analysis with
   | none => []
   | some a =>
     importLines rel a ++ exportLines rel a ++ typeLines rel a ++
       (a.classes.flatMap (classBlock rel)) ++ funcLines rel a)

/-! ## Concrete inputs and records used by the claim theorems -/

/-- A kind-A input whose single class has eleven method matches inside the
scan window. -/
def exC2 : Cs :=
  ("class Foo \x7b a1()\x7b\x7d a2()\x7b\x7d a3()\x7b\x7d a4()\x7b\x7d a5()\x7b\x7d a6()\x7b\x7d a7()\x7b\x7d a8()\x7b\x7d a9()\x7b\x7d b1()\x7b\x7d b2()\x7b\x7d \x7d").toList

/-- A kind-B input where a top-level `def helper` in an unrelated scope
collides with a method name captured later. -/
def exC5 : Cs :=
  ("def helper(x): pass\ndef other(y): pass\nclass A:\n    def helper(self): pass\n").toList

/-- The record the extractor produces for `def other(y)` in `exC5`. -/
def exC5Func : FunctionInfo :=
  { name := some (("other").toList), signature := ("(y)").toList
  , is_async := false, is_exported := false }

/-- The record the extractor produces for the method `helper` in `exC5`. -/
def exC5Meth : FunctionInfo :=
  { name := some (("helper").toList), signature := ("(self)").toList
  , is_async := false, is_exported := false }

/-- The class record of `exC5`. -/
def exC5Class : ClassInfo :=
  { name := ("A").toList, methods := [exC5Meth], is_exported := false }

/-- A kind-B input with an initializer, another dunder method and an
ordinary method in one class. -/
def exC8 : Cs :=
  ("class A:\n    def __init__(self): pass\n    def __str__(self): pass\n    def run(self): pass\n").toList

/-- The record the extractor produces for the initializer of `exC8`. -/
def exC8Meth : FunctionInfo :=
  { name := some (("__init__").toList), signature := ("(self)").toList
  , is_async := false, is_exported := false }

/-- The record the extractor produces for the method `run` of `exC8`. -/
def exC8Run : FunctionInfo :=
  { name := some (("run").toList), signature := ("(self)").toList
  , is_async := false, is_exported := false }

/-- The class record of `exC8`. -/
def exC8Class : ClassInfo :=
  { name := ("A").toList, methods := [exC8Meth, exC8Run], is_exported := false }

/-- An input on which no extraction pattern matches. -/
def junkInput : Cs := ("@@@@\n%%%%").toList

/-- A placeholder function record, for counting serialized lines. -/
def dummyFunc : FunctionInfo :=
  { name := none, signature := [], is_async := false, is_exported := false }

/-! ## Helper lemmas about the matcher machinery -/

theorem firstSome_eq_some {α β : Type} {l : List α} {f : α → Option β} {b : β}
    (h : firstSome l f = some b) : ∃ a, a ∈ l ∧ f a = some b := by
  induction l with
  | nil => simp [firstSome] at h
  | cons x xs ih =>
    rw [firstSome] at h
    cases hx : f x with
    | some y =>
      rw [hx] at h
      exact ⟨x, List.mem_cons_self x xs, by rw [hx]; exact h⟩
    | none =>
      rw [hx] at h
      obtain ⟨a, ha, hfa⟩ := ih h
      exact ⟨a, List.mem_cons_of_mem x ha, hfa⟩

theorem finditerAux_mem {α : Type} {m : Cs → Option (α × Cs)} :
    ∀ (fuel : Nat) (s : Cs) (a : α), a ∈ finditerAux m fuel s →
      ∃ s2 r, m s2 = some (a, r) := by
  intro fuel
  induction fuel with
  | zero => intro s a h; simp [finditerAux] at h
  | succ n ih =>
    intro s a h
    cases hm : m s with
    | some pr =>
      obtain ⟨a0, r⟩ := pr
      cases s with
      | nil =>
        simp only [finditerAux, hm] at h
        rcases List.mem_singleton.mp h with rfl
        exact ⟨[], r, hm⟩
      | cons c t =>
        simp only [finditerAux, hm] at h
        split at h
        · rcases List.mem_cons.mp h with h1 | h1
          · exact ⟨c :: t, r, by rw [hm, h1]⟩
          · exact ih r a h1
        · rcases List.mem_cons.mp h with h1 | h1
          · exact ⟨c :: t, r, by rw [hm, h1]⟩
          · exact ih t a h1
    | none =>
      cases s with
      | nil => simp [finditerAux, hm] at h
      | cons c t =>
        simp only [finditerAux, hm] at h
        exact ih t a h

theorem finditer_mem {α : Type} {m : Cs → Option (α × Cs)} {s : Cs} {a : α}
    (h : a ∈ finditer m s) : ∃ s2 r, m s2 = some (a, r) :=
  finditerAux_mem (s.length + 1) s a h

/-- Every path the import matcher captures begins with a dot: the capture
group of the regex is `(\.[^'"]+)`. -/
theorem tsImportM_starts_dot {s p r : Cs} (h : tsImportM s = some (p, r)) :
    ∃ t, p = '.' :: t := by
  unfold tsImportM at h
  rcases Option.bind_eq_some.mp h with ⟨s1, _, h⟩
  rcases firstSome_eq_some h with ⟨pr1, _, h⟩
  rcases firstSome_eq_some h with ⟨pr2, _, h⟩
  rcases firstSome_eq_some h with ⟨pr3, _, h⟩
  rcases Option.bind_eq_some.mp h with ⟨s5, _, h⟩
  rcases firstSome_eq_some h with ⟨pr4, _, h⟩
  split at h
  · split at h
    · split at h
      · rcases firstSome_eq_some h with ⟨pr5, _, h⟩
        split at h
        · split at h
          · injection h with h2
            cases h2
            exact ⟨pr5.1, rfl⟩
          · simp at h
        · simp at h
      · simp at h
    · simp at h
  · simp at h

/-! ## Claim theorems -/

/-- Claim C1: for a file whose read fails (permission or decoding failure,
modelled by `readResult = none`), extraction is silently skipped: no
structural record is produced, and serialization writes exactly one FILE
metadata line with `has_tests=false` and no structural lines, whatever the
extension, path and size. -/
theorem claim1_unreadable_file :
    ∀ (ext rel : Cs) (size : Nat) (ht : Bool),
      analyze_file ext none ht = none ∧
      fileLines rel size (analyze_file ext none ht) = [mkFileLine rel size false] := by
  intro ext rel size ht
  have h1 : analyze_file ext none ht = none := by
    by_cases hc : (ext.map Char.toLower) ∈ codeExtensions
    · simp [analyze_file, hc]
    · simp [analyze_file, hc]
  exact ⟨h1, by rw [h1]; rfl⟩

/-- Claim C2, counterexample: on `exC2` the record returned by the extractor
has a ClassDecl with eleven methods — the extractor does not truncate the
methods list to the first ten matches; the bound is applied only at
serialization. -/
theorem claim2_counterexample :
    ((analyze_typescript_file exC2 false).classes.map (fun c => c.methods.length)) = [11] :=
  rfl

/-- Claim C2, amended: the ClassDecl of the record keeps every method match
of the scan window (eleven on `exC2`); the first-ten bound is applied at
serialization, where the METHOD lines of a class are exactly the first ten
methods of the record in window order. -/
theorem claim2_amended_cap_at_serialization :
    (∀ (rel : Cs) (c : ClassInfo),
      methodLines rel c = (c.methods.take 10).map (mkMethodLine rel c.name) ∧
      (methodLines rel c).length = min 10 c.methods.length) ∧
    (∀ (rel : Cs) (ht : Bool),
      ((analyze_typescript_file exC2 ht).classes.map
        (fun c => (methodLines rel c).length)) = [10]) ∧
    (∀ ht : Bool,
      ((analyze_typescript_file exC2 ht).classes.map (fun c => c.methods.length)) = [11]) := by
  refine ⟨fun rel c => ⟨rfl, ?_⟩, fun rel ht => rfl, fun ht => rfl⟩
  simp [methodLines, List.length_take]

/-- Claim C3: the `isAsync` flag of a captured Python def is the substring
test `'async' in match.group(0)` over the whole matched text; in particular
a def without the async keyword whose parameter name contains `async` is
recorded with `isAsync=true`, while an ordinary def is recorded with
`isAsync=false`. -/
theorem claim3_async_substring :
    (∀ m : PyDef,
      (pyMkFunctionInfo m).is_async = containsSub (("async").toList) m.g0) ∧
    (∀ ht : Bool,
      ((analyze_python_file (("def f(xasync): pass").toList) ht).functions.map
        (fun f => (f.name, f.is_async))) = [(some (("f").toList), true)]) ∧
    (∀ ht : Bool,
      ((analyze_python_file (("def g(x): pass").toList) ht).functions.map
        (fun f => (f.name, f.is_async))) = [(some (("g").toList), false)]) :=
  ⟨fun _ => rfl, fun _ => rfl, fun _ => rfl⟩

/-- Claim C4: extraction is total — for every source text and kind it
returns a structural record, never an error; on input where nothing matches
the record simply has empty lists, and for other kinds the record always has
empty lists. -/
theorem claim4_total_extraction :
    (∀ (content : Cs) (k : SourceKind) (ht : Bool), ∃ r : FileAnalysis,
      extract content k ht = r) ∧
    (∀ ht : Bool, extract junkInput SourceKind.kindA ht = { has_tests := ht }) ∧
    (∀ ht : Bool, extract junkInput SourceKind.kindB ht = { has_tests := ht }) ∧
    (∀ (content : Cs) (ht : Bool),
      extract content SourceKind.otherKind ht = { has_tests := ht }) :=
  ⟨fun content k ht => ⟨extract content k ht, rfl⟩,
   fun _ => rfl, fun _ => rfl, fun _ _ => rfl⟩

/-- Claim C5: a Python def is excluded from the standalone functions list
whenever its name equals a captured method name of any class (name-only
comparison); every other matched def is included; on `exC5` the unrelated
top-level `helper` is excluded and only `other` remains. -/
theorem claim5_name_collision_exclusion :
    (∀ (content : Cs) (ht : Bool) (f : FunctionInfo),
      f ∈ (analyze_python_file content ht).functions →
      ∀ c, c ∈ (analyze_python_file content ht).classes →
      ∀ m, m ∈ c.methods → ¬(f.name = m.name)) ∧
    (∀ (content : Cs) (ht : Bool) (d : PyDef),
      d ∈ finditer pyDefM content →
      ¬((some d.name) ∈ pyMethodNamesOf (pyClassesOf content)) →
      pyMkFunctionInfo d ∈ (analyze_python_file content ht).functions) ∧
    (∀ ht : Bool,
      ((analyze_python_file exC5 ht).functions.map (fun f => f.name)) =
        [some (("other").toList)]) := by
  refine ⟨?_, ?_, fun ht => rfl⟩
  · intro content ht f hf c hc m hm he
    rcases List.mem_filterMap.mp hf with ⟨d, _, heq⟩
    split at heq
    · cases heq
    · rename_i hn
      cases heq
      apply hn
      have he2 : some d.name = m.name := he
      rw [he2]
      exact List.mem_flatMap.mpr ⟨c, hc, List.mem_map.mpr ⟨m, hm, rfl⟩⟩
  · intro content ht d hd hn
    exact List.mem_filterMap.mpr ⟨d, hd, by rw [if_neg hn]⟩

/-- Claim C5, witness: on `exC5` the retained standalone function `other`
indeed has a name different from the captured method `helper`. -/
theorem claim5_witness : ¬(exC5Func.name = exC5Meth.name) :=
  claim5_name_collision_exclusion.1 exC5 true exC5Func (by decide)
    exC5Class (by decide) exC5Meth (by decide)

/-- Claim C6: for kind-A input the imports list is exactly the captured
paths of the import matcher; every captured path textually begins with a
dot; an import whose path does not begin with a dot yields no entry; only
the path is captured. -/
theorem claim6_relative_imports_only :
    (∀ (content : Cs) (ht : Bool),
      (analyze_typescript_file content ht).imports = finditer tsImportM content) ∧
    (∀ (content : Cs) (ht : Bool) (p : Cs),
      p ∈ (analyze_typescript_file content ht).imports → ∃ t, p = '.' :: t) ∧
    (∀ ht : Bool,
      (analyze_typescript_file (("import x from \"package\"").toList) ht).imports = []) ∧
    (∀ ht : Bool,
      (analyze_typescript_file (("import x from \"./a\"").toList) ht).imports =
        [("./a").toList]) := by
  refine ⟨fun content ht => rfl, ?_, fun ht => rfl, fun ht => rfl⟩
  intro content ht p hp
  obtain ⟨s2, r, hm⟩ := finditer_mem hp
  exact tsImportM_starts_dot hm

/-- Claim C6, witness: the captured path of `import x from "./a"` begins
with a dot. -/
theorem claim6_witness : ∃ t, ("./a").toList = '.' :: t :=
  claim6_relative_imports_only.2.1 (("import x from \"./a\"").toList) true
    (("./a").toList) (by decide)

/-- Claim C7: on kind-A input containing
`export function foo(a: number): string {}` the extractor records a
FunctionDecl named `foo` with signature `(a: number): string`, not async,
exported. -/
theorem claim7_export_function_foo :
    ∀ ht : Bool,
      (analyze_typescript_file
        (("export function foo(a: number): string \x7b\x7d").toList) ht).functions =
      [{ name := some (("foo").toList)
       , signature := ("(a: number): string").toList
       , is_async := false
       , is_exported := true }] :=
  fun _ => rfl

/-- Claim C8: inside a Python class scan window a matched method named
`__init__` is retained while every other method whose name starts with a
double underscore is excluded; on `exC8`, `__init__` and `run` are kept and
`__str__` is dropped. -/
theorem claim8_dunder_filter :
    (∀ (content : Cs) (ht : Bool) (c : ClassInfo) (m : FunctionInfo) (nm : Cs),
      c ∈ (analyze_python_file content ht).classes → m ∈ c.methods →
      m.name = some nm → (("__").toList).isPrefixOf nm = true →
      nm = ("__init__").toList) ∧
    (∀ ht : Bool,
      ((analyze_python_file exC8 ht).classes.map
        (fun c => c.methods.map (fun m => m.name))) =
      [[some (("__init__").toList), some (("run").toList)]]) := by
  refine ⟨?_, fun ht => rfl⟩
  intro content ht c m nm hc hm hname hpre
  rcases List.mem_map.mp hc with ⟨pr, _, hceq⟩
  rw [← hceq] at hm
  rcases List.mem_filterMap.mp hm with ⟨d, _, heq⟩
  split at heq
  · cases heq
  · rename_i hn
    cases heq
    have hdnm : d.name = nm := by
      have := hname
      simp [pyMkFunctionInfo] at this
      exact this
    by_contra hne
    exact hn ⟨by rw [hdnm]; exact hpre, by rw [hdnm]; intro hx; exact hne hx⟩

/-- Claim C8, witness: the initializer of `exC8` is retained and its name is
the initializer name. -/
theorem claim8_witness : ("__init__").toList = ("__init__").toList :=
  claim8_dunder_filter.1 exC8 true exC8Class exC8Meth (("__init__").toList)
    (by decide) (by decide) (by decide) (by decide)

/-- Claim C9: serialization caps per file — IMPORT lines are capped at 5,
EXPORT lines at 10, METHOD lines per class at 10, FUNC lines at 15, while
TYPE lines and CLASS lines are uncapped (one TYPE line per type declaration,
one CLASS line per class); a record with 20 standalone functions emits
exactly 15 FUNC lines. -/
theorem claim9_serialization_caps :
    ∀ (rel : Cs) (a : FileAnalysis) (c : ClassInfo),
      (importLines rel a).length = min 5 a.imports.length ∧
      (exportLines rel a).length = min 10 a.exports.length ∧
      (typeLines rel a).length = a.types.length ∧
      (classBlock rel c).length = 1 + min 10 c.methods.length ∧
      (funcLines rel a).length = min 15 a.functions.length ∧
      (funcLines rel { functions := List.replicate 20 dummyFunc }).length = 15 := by
  intro rel a c
  refine ⟨?_, ?_, ?_, ?_, ?_, ?_⟩
  · simp [importLines, List.length_take]
  · simp [exportLines, List.length_take]
  · simp [typeLines]
  · simp [classBlock, methodLines, List.length_take]
    omega
  · simp [funcLines, List.length_take]
  · simp [funcLines, List.length_take]

/-- Claim C10: extraction is deterministic — on identical source text (with
the test-existence probe held fixed) it yields identical records. -/
theorem claim10_deterministic :
    ∀ (s t : Cs) (k : SourceKind) (ht : Bool), s = t →
      extract s k ht = extract t k ht := by
  intro s t k ht h
  rw [h]

/-- Claim C10, witness: two runs on the same concrete text agree. -/
theorem claim10_witness :
    extract (("const f = (x) => x;").toList) SourceKind.kindA true =
      extract (("const f = (x) => x;").toList) SourceKind.kindA true :=
  claim10_deterministic _ _ SourceKind.kindA true rfl

end ArchOverview
